import Mathlib

/-!
Verification of the `grades_list` program (src/main.rs): a CLI tool that
authenticates against a university portal, scrapes a grade table, and computes
two credit-weighted GPA scales.

The Rust source is shallowly embedded: pure string manipulation is modelled
over `List Char` / `String`, `f32` arithmetic over exact rationals `ℚ` with an
explicit `FVal` wrapper capturing the NaN/infinity outcomes of float division,
`HashMap` over association lists (the program only observes key lookups and
the field count, both order-independent), and panics / fatal conditions as
`Except` errors.
-/

namespace GradesList

/-- Separator test of Rust `str::split_ascii_whitespace`: ASCII space, tab,
newline, form feed, carriage return. -/
def isAsciiWs (c : Char) : Bool :=
  c = ' ' || c = '\t' || c = '\n' || c = '\x0c' || c = '\r'

/-- Accumulator-based splitter: `acc` holds the current token reversed. -/
def splitWsAux : List Char → List Char → List String
  | [], acc => if acc.isEmpty then [] else [⟨acc.reverse⟩]
  | c :: rest, acc =>
    if isAsciiWs c then
      if acc.isEmpty then splitWsAux rest [] else ⟨acc.reverse⟩ :: splitWsAux rest []
    else splitWsAux rest (c :: acc)

/-- Rust `str::split_ascii_whitespace` collected to a list: maximal runs of
non-whitespace characters, empty tokens omitted. -/
def splitAsciiWs (s : String) : List String :=
  splitWsAux s.data []

/-- Rust `str::trim` (whitespace stripped from both ends), on character
lists. -/
def trimChars (cs : List Char) : List Char :=
  ((cs.dropWhile Char.isWhitespace).reverse.dropWhile Char.isWhitespace).reverse

/-- Rust `str::trim` on `String`. -/
def trimStr (s : String) : String :=
  ⟨trimChars s.data⟩

/-- Value of a list of decimal digit characters, most significant first. -/
def digitsToNat (ds : List Char) : Nat :=
  ds.foldl (fun a c => a * 10 + (c.toNat - 48)) 0

/-- Parse the part of a float literal after the integral digits `intPart`:
either nothing, or a decimal point followed by fraction digits. Returns the
mantissa value and the unconsumed remainder. Fails when no digit appears on
either side of the point. -/
def parseMantissaTail (intPart rest : List Char) : Option (ℚ × List Char) :=
  match rest with
  | '.' :: rest2 =>
    let fracPart := rest2.takeWhile Char.isDigit
    let rest3 := rest2.dropWhile Char.isDigit
    if intPart.isEmpty && fracPart.isEmpty then none
    else some ((digitsToNat intPart : ℚ) + (digitsToNat fracPart : ℚ) / (10 ^ fracPart.length), rest3)
  | _ => if intPart.isEmpty then none else some ((digitsToNat intPart : ℚ), rest)

/-- Parse an optionally signed run of decimal digits (a float exponent). -/
def parseExpDigits : List Char → Option Int
  | '+' :: ds => if !ds.isEmpty && ds.all Char.isDigit then some (digitsToNat ds) else none
  | '-' :: ds => if !ds.isEmpty && ds.all Char.isDigit then some (-(digitsToNat ds : Int)) else none
  | ds => if !ds.isEmpty && ds.all Char.isDigit then some (digitsToNat ds) else none

/-- Parse an unsigned float literal: mantissa digits, optional fraction,
optional `e`/`E` exponent; the whole input must be consumed. -/
def parseUnsigned (cs : List Char) : Option ℚ :=
  match parseMantissaTail (cs.takeWhile Char.isDigit) (cs.dropWhile Char.isDigit) with
  | none => none
  | some (m, []) => some m
  | some (m, e :: rest2) =>
    if e = 'e' || e = 'E' then
      match parseExpDigits rest2 with
      | some ex => some (m * (10 : ℚ) ^ ex)
      | none => none
    else none

/-- Rust `str::parse::<f32>` on its finite decimal grammar (optional sign,
digits with optional fraction and exponent), over exact rationals. Binary
rounding and the `inf`/`nan` literal forms are below the abstraction level of
this development. -/
def parseF32 (s : String) : Option ℚ :=
  match s.data with
  | '+' :: cs => parseUnsigned cs
  | '-' :: cs => (parseUnsigned cs).map Neg.neg
  | cs => parseUnsigned cs

/-- One scraped table row (struct `CourseData` in src/main.rs). -/
structure CourseData where
  session : String
  course : String
  title : String
  grade : String
deriving DecidableEq, Repr

/-- Outcome of an `f32` division in the program: a finite value, NaN, or a
signed infinity. -/
inductive FVal where
  | num (q : ℚ)
  | nan
  | inf (pos : Bool)
deriving DecidableEq, Repr

/-- Float division `a / b` over exact rationals: finite quotient when `b ≠ 0`,
NaN for `0 / 0`, signed infinity for `a / 0` with `a ≠ 0`. -/
def fdiv (a b : ℚ) : FVal :=
  if b = 0 then (if a = 0 then FVal.nan else FVal.inf (decide (0 < a))) else FVal.num (a / b)

/-- The computed GPA pair (struct `GPA` in src/main.rs). -/
structure GPA where
  four : FVal
  nine : FVal
deriving DecidableEq, Repr

/-- The one fatal condition of `calculate_gpa`: the indexing
`course_parts[3]` or the `parse::<f32>().unwrap()` panics. -/
inductive GpaError where
  | creditParse
deriving DecidableEq, Repr

/-- The `nine` lookup table of `calculate_gpa` (9-point scale). -/
def nineTable : String → Option ℚ
  | "A+" => some 9
  | "A" => some 8
  | "B+" => some 7
  | "B" => some 6
  | "C+" => some 5
  | "C" => some 4
  | "D+" => some 3
  | "D" => some 2
  | "E" => some 1
  | "F" => some 0
  | _ => none

/-- The `four` lookup table of `calculate_gpa` (4-point scale). -/
def fourTable : String → Option ℚ
  | "A+" => some 4
  | "A" => some 3.8
  | "B+" => some 3.3
  | "B" => some 3
  | "C+" => some 2.3
  | "C" => some 2
  | "D+" => some 1.3
  | "D" => some 1
  | "E" => some 0.7
  | "F" => some 0
  | _ => none

/-- The credit extraction of `calculate_gpa`: split the course field on ASCII
whitespace, trim each part, index the 4th part and parse it as `f32`. `none`
models both panics (index out of bounds, unwrap on a failed parse). -/
def creditOf (course : String) : Option ℚ :=
  let course_parts := (splitAsciiWs course).map trimStr
  match course_parts[3]? with
  | none => none
  | some t => parseF32 t

/-- The accumulation loop of `calculate_gpa` over (total_credits, nine_point,
four_point): records with unrecognized grades are skipped; a recognized grade
whose credit cannot be extracted aborts the whole computation. -/
def gpaLoop : List CourseData → ℚ → ℚ → ℚ → Except GpaError (ℚ × ℚ × ℚ)
  | [], tc, np, fp => Except.ok (tc, np, fp)
  | g :: rest, tc, np, fp =>
    match nineTable g.grade with
    | none => gpaLoop rest tc np fp
    | some v9 =>
      match creditOf g.course with
      | none => Except.error GpaError.creditParse
      | some credit =>
        gpaLoop rest (tc + credit) (np + v9 * credit) (fp + (fourTable g.grade).getD 0 * credit)

/-- `calculate_gpa` of src/main.rs: run the accumulation loop from zero and
divide each weighted sum by the total credits (float division). -/
def calculate_gpa (grades : List CourseData) : Except GpaError GPA :=
  (gpaLoop grades 0 0 0).map fun acc =>
    { four := fdiv acc.2.2 acc.1, nine := fdiv acc.2.1 acc.1 }

/-- Spec-side predicate: the record's grade is one of the 10 recognized letter
grades. -/
def specQualifies (r : CourseData) : Bool :=
  (nineTable r.grade).isSome

/-- Spec-side credit of a record (meaningful when the course field carries a
parseable 4th token). -/
def specCredit (r : CourseData) : ℚ :=
  (creditOf r.course).getD 0

/-- Spec-side `sum(credit)` over the records with recognized grades. -/
def specSumCredits (rs : List CourseData) : ℚ :=
  ((rs.filter specQualifies).map specCredit).sum

/-- Spec-side `sum(gradeValue9 * credit)` over the records with recognized
grades. -/
def specSum9 (rs : List CourseData) : ℚ :=
  ((rs.filter specQualifies).map fun r => (nineTable r.grade).getD 0 * specCredit r).sum

/-- Spec-side `sum(gradeValue4 * credit)` over the records with recognized
grades. -/
def specSum4 (rs : List CourseData) : ℚ :=
  ((rs.filter specQualifies).map fun r => (fourTable r.grade).getD 0 * specCredit r).sum


/-- Fuelled engine of Rust `str::replace`: scan left to right, replace each
leftmost non-overlapping occurrence of `pat` by `repl`. One fuel unit is spent
per step and every step consumes at least one character, so fuel equal to the
length of the scanned list never runs out. -/
def replaceAllAux : Nat → List Char → List Char → List Char → List Char
  | 0, _, _, s => s
  | _ + 1, _, _, [] => []
  | fuel + 1, pat, repl, c :: rest =>
    if pat.isPrefixOf (c :: rest) then
      repl ++ replaceAllAux fuel pat repl (rest.drop (pat.length - 1))
    else c :: replaceAllAux fuel pat repl rest

/-- Rust `str::replace` on character lists. -/
def replaceAll (pat repl s : List Char) : List Char :=
  replaceAllAux s.length pat repl s

/-- Rust `s.replace(pat, repl)` on `String`. -/
def strReplace (s pat repl : String) : String :=
  ⟨replaceAll pat.data repl.data s.data⟩

/-- `html_entities` of src/main.rs: drop `&nbsp;`, then decode `&amp;`,
`&lt;`, `&gt;`, in that order. -/
def html_entities (s : String) : String :=
  strReplace (strReplace (strReplace (strReplace s "&nbsp;" "") "&amp;" "&") "&lt;" "<") "&gt;" ">"

/-- The two fatal conditions of `scrape_table`: no `table.bodytext` element,
or a retained row too short for the `row[0..3]` indexing. -/
inductive ScrapeError where
  | tableNotFound
  | rowShape
deriving DecidableEq, Repr

/-- `select_cells` of src/main.rs applied to a row: the `td` cells' inner
html, each whitespace-trimmed. -/
def select_cells (cells : List String) : List String :=
  cells.map trimStr

/-- One `CourseData` built from the first four cells of a (trimmed) row,
entity-decoded, as in the record construction of `scrape_table`. -/
def recordOfRow (row : List String) : CourseData :=
  { session := html_entities (row.getD 0 "")
    course := html_entities (row.getD 1 "")
    title := html_entities (row.getD 2 "")
    grade := html_entities (row.getD 3 "") }

/-- The row loop of `scrape_table`: skip rows with zero cells, emit a record
per remaining row, abort with the row-shape error when a retained row has
fewer than four cells (the `row[0..3]` indexing panics). -/
def scrapeRows : List (List String) → Except ScrapeError (List CourseData)
  | [] => Except.ok []
  | row :: rest =>
    if row.isEmpty then scrapeRows rest
    else if 4 ≤ row.length then
      (scrapeRows rest).map fun l => recordOfRow row :: l
    else Except.error ScrapeError.rowShape

/-- `scrape_table` of src/main.rs over the parsed course page, abstracted as
the list of elements matching `table.bodytext` in document order, each table
the list of its `tr` rows, each row the list of its `td` cells' inner html.
The empty selection panics with the table-not-found error; otherwise only the
first table is scanned. -/
def scrape_table (tables : List (List (List String))) : Except ScrapeError (List CourseData) :=
  match tables with
  | [] => Except.error ScrapeError.tableNotFound
  | t :: _ => scrapeRows (t.map select_cells)


/-- One `input type="hidden"` element of the login page, with its optional
`name` and `value` attributes. -/
structure HiddenInput where
  name : Option String
  value : Option String
deriving DecidableEq, Repr

/-- The fatal condition of `auth`: a hidden input whose `name` or `value`
attribute is absent (the `attr(..).unwrap()` panics). -/
inductive AuthError where
  | malformedPage
deriving DecidableEq, Repr

/-- The three fixed login fields inserted first by `auth`. -/
def fixedFields (username password : String) : List (String × String) :=
  [("mli", username), ("password", password), ("dologin", "Login")]

/-- `HashMap::insert` on the association-list model: replace the value when
the key is present, append otherwise. The program observes the map only
through its entry count and key lookups, both order-independent, so an
insertion-ordered association list is a faithful model. -/
def mapInsert (m : List (String × String)) (k v : String) : List (String × String) :=
  if m.any fun p => p.1 == k then m.map fun p => if p.1 == k then (p.1, v) else p
  else m ++ [(k, v)]

/-- `HashMap::get` on the association-list model (first match). -/
def mapFind (k : String) : List (String × String) → Option String
  | [] => none
  | p :: rest => if p.1 == k then some p.2 else mapFind k rest

/-- The hidden-field loop of `auth`: insert each hidden input's name/value
pair, aborting when an attribute is missing. -/
def insertHidden (m : List (String × String)) : List HiddenInput → Except AuthError (List (String × String))
  | [] => Except.ok m
  | h :: rest =>
    match h.name, h.value with
    | some n, some v => insertHidden (mapInsert m n v) rest
    | _, _ => Except.error AuthError.malformedPage

/-- The login form built by `auth`: the three fixed fields, then every hidden
input of the course-list page in document order. -/
def login_fields (username password : String) (hiddens : List HiddenInput) : Except AuthError (List (String × String)) :=
  insertHidden (fixedFields username password) hiddens

/-- Rust `str::contains` (substring test) on character lists. -/
def containsSub (hay pat : List Char) : Bool :=
  match hay with
  | [] => pat.isEmpty
  | _ :: t => pat.isPrefixOf hay || containsSub t pat

/-- The success marker checked by `auth` in the login response body. -/
def successMarker : String := "You have successfully authenticated"

/-- `auth` of src/main.rs as a function of the credentials, the hidden inputs
of the fetched course-list page, and the login response body: the form it
posts paired with the success flag it returns. -/
def auth (username password : String) (coursePage : List HiddenInput) (loginRespBody : String) :
    Except AuthError (List (String × String) × Bool) :=
  (login_fields username password coursePage).map fun fields =>
    (fields, containsSub loginRespBody.data successMarker.data)

theorem gpaLoop_ok_of_parseable (rs : List CourseData)
    (h : ∀ r ∈ rs, specQualifies r = true → (creditOf r.course).isSome) :
    ∀ tc np fp, gpaLoop rs tc np fp =
      Except.ok (tc + specSumCredits rs, np + specSum9 rs, fp + specSum4 rs) := by
  induction rs with
  | nil => intro tc np fp; simp [gpaLoop, specSumCredits, specSum9, specSum4]
  | cons g rest ih =>
    intro tc np fp
    have hrest : ∀ r ∈ rest, specQualifies r = true → (creditOf r.course).isSome :=
      fun r hr => h r (List.mem_cons_of_mem _ hr)
    cases hq : nineTable g.grade with
    | none =>
      have hqf : specQualifies g = false := by simp [specQualifies, hq]
      simp only [gpaLoop, hq]
      rw [ih hrest]
      simp [specSumCredits, specSum9, specSum4, List.filter_cons, hqf]
    | some v9 =>
      have hqt : specQualifies g = true := by simp [specQualifies, hq]
      obtain ⟨c, hc⟩ := Option.isSome_iff_exists.mp (h g (List.mem_cons_self g rest) hqt)
      simp only [gpaLoop, hq, hc]
      rw [ih hrest]
      have hcred : specCredit g = c := by simp [specCredit, hc]
      simp [specSumCredits, specSum9, specSum4, List.filter_cons, hqt, hcred, hq]
      refine ⟨by ring, by ring, by ring⟩

theorem gpaLoop_error_iff (rs : List CourseData) :
    ∀ tc np fp, (gpaLoop rs tc np fp = Except.error GpaError.creditParse ↔
      ∃ r ∈ rs, (nineTable r.grade).isSome ∧ creditOf r.course = none) := by
  induction rs with
  | nil => intro tc np fp; simp [gpaLoop]
  | cons g rest ih =>
    intro tc np fp
    cases hq : nineTable g.grade with
    | none =>
      simp only [gpaLoop, hq]
      rw [ih]
      simp [hq]
    | some v9 =>
      cases hc : creditOf g.course with
      | none =>
        simp only [gpaLoop, hq, hc]
        simp [hq, hc]
      | some c =>
        simp only [gpaLoop, hq, hc]
        rw [ih]
        simp [hq, hc]

theorem gpaLoop_of_unrecognized (rs : List CourseData)
    (h : ∀ r ∈ rs, nineTable r.grade = none) :
    ∀ tc np fp, gpaLoop rs tc np fp = Except.ok (tc, np, fp) := by
  induction rs with
  | nil => intro tc np fp; rfl
  | cons g rest ih =>
    intro tc np fp
    have hg := h g (List.mem_cons_self g rest)
    simp only [gpaLoop, hg]
    exact ih (fun r hr => h r (List.mem_cons_of_mem _ hr)) tc np fp

theorem gpaLoop_congr (rs1 rs2 : List CourseData)
    (h : List.Forall₂ (fun a b => a.course = b.course ∧ a.grade = b.grade) rs1 rs2) :
    ∀ tc np fp, gpaLoop rs1 tc np fp = gpaLoop rs2 tc np fp := by
  induction h with
  | nil => intro tc np fp; rfl
  | cons hab htail ih =>
    intro tc np fp
    obtain ⟨hcourse, hgrade⟩ := hab
    simp only [gpaLoop, hcourse, hgrade]
    cases nineTable _ with
    | none => exact ih tc np fp
    | some v9 =>
      cases creditOf _ with
      | none => rfl
      | some c => exact ih _ _ _

theorem replaceAllAux_no_occurrence (pat repl : List Char) :
    ∀ fuel s, ¬ pat <:+: s → replaceAllAux fuel pat repl s = s := by
  intro fuel
  induction fuel with
  | zero => intro s h; rfl
  | succ n ih =>
    intro s h
    cases s with
    | nil => rfl
    | cons c rest =>
      have hpre : pat.isPrefixOf (c :: rest) = false := by
        rw [Bool.eq_false_iff]
        intro hp
        exact h ( List.isPrefixOf_iff_prefix.mp hp).isInfix
      simp only [replaceAllAux, hpre, Bool.false_eq_true, if_false]
      rw [ih rest (fun hi => h ( List.infix_cons hi))]

theorem strReplace_no_occurrence (s pat repl : String) (h : ¬ pat.data <:+: s.data) :
    strReplace s pat repl = s := by
  cases s with
  | mk data =>
    simp only [strReplace, replaceAll]
    rw [replaceAllAux_no_occurrence pat.data repl.data _ _ h]

theorem html_entities_of_clean (s : String)
    (h1 : ¬ "&nbsp;".data <:+: s.data) (h2 : ¬ "&amp;".data <:+: s.data)
    (h3 : ¬ "&lt;".data <:+: s.data) (h4 : ¬ "&gt;".data <:+: s.data) :
    html_entities s = s := by
  rw [html_entities, strReplace_no_occurrence s _ _ h1, strReplace_no_occurrence s _ _ h2,
    strReplace_no_occurrence s _ _ h3, strReplace_no_occurrence s _ _ h4]

theorem scrapeRows_all_long (rows : List (List String)) (h : ∀ r ∈ rows, 4 ≤ r.length) :
    scrapeRows rows = Except.ok (rows.map recordOfRow) := by
  induction rows with
  | nil => rfl
  | cons row rest ih =>
    have hlen : 4 ≤ row.length := h row (List.mem_cons_self row rest)
    have hne : row.isEmpty = false := by
      cases row with
      | nil => simp at hlen
      | cons a t => rfl
    simp only [scrapeRows, hne, Bool.false_eq_true, if_false, hlen, if_pos]
    rw [ih (fun r hr => h r (List.mem_cons_of_mem _ hr))]
    rfl

theorem scrapeRows_error_iff (rows : List (List String)) :
    scrapeRows rows = Except.error ScrapeError.rowShape ↔
      ∃ r ∈ rows, r ≠ [] ∧ r.length < 4 := by
  induction rows with
  | nil => simp [scrapeRows]
  | cons row rest ih =>
    cases he : row.isEmpty with
    | true =>
      have hnil : row = [] := List.isEmpty_iff.mp he
      simp only [scrapeRows, he, if_pos]
      rw [ih]
      simp [hnil]
    | false =>
      have hnenil : row ≠ [] := by
        intro hx; rw [hx] at he; simp at he
      by_cases hlen : 4 ≤ row.length
      · simp only [scrapeRows, he, Bool.false_eq_true, if_false, hlen, if_pos]
        have hmap : ((scrapeRows rest).map fun l => recordOfRow row :: l) =
            Except.error ScrapeError.rowShape ↔
            scrapeRows rest = Except.error ScrapeError.rowShape := by
          cases scrapeRows rest <;> simp [Except.map]
        rw [hmap, ih]
        have : ¬ row.length < 4 := not_lt.mpr hlen
        simp [this]
      · simp only [scrapeRows, he, Bool.false_eq_true, if_false, hlen, if_false]
        constructor
        · intro _
          exact ⟨row, List.mem_cons_self row rest, hnenil, not_le.mp hlen⟩
        · intro _
          trivial

theorem scrapeRows_ne_tableNotFound (rows : List (List String)) :
    scrapeRows rows ≠ Except.error ScrapeError.tableNotFound := by
  induction rows with
  | nil => intro hx; cases hx
  | cons row rest ih =>
    cases he : row.isEmpty with
    | true =>
      simp only [scrapeRows, he, if_pos]
      exact ih
    | false =>
      by_cases hlen : 4 ≤ row.length
      · simp only [scrapeRows, he, Bool.false_eq_true, if_false, hlen, if_pos]
        cases hr : scrapeRows rest with
        | error e =>
          cases e with
          | tableNotFound => exact absurd hr ih
          | rowShape => intro hx; cases hx
        | ok l => intro hx; cases hx
      · simp only [scrapeRows, he, Bool.false_eq_true, if_false, hlen, if_false]
        intro hx; cases hx

theorem containsSub_correct (hay pat : List Char) :
    containsSub hay pat = true ↔ pat <:+: hay := by
  induction hay with
  | nil => simp [containsSub, List.isEmpty_iff]
  | cons a t ih =>
    simp [containsSub, List.infix_cons_iff, ih, List.isPrefixOf_iff_prefix, or_comm]

theorem mapFind_append (k : String) (m1 m2 : List (String × String)) :
    mapFind k (m1 ++ m2) =
      match mapFind k m1 with
      | some v => some v
      | none => mapFind k m2 := by
  induction m1 with
  | nil => simp [mapFind]
  | cons p rest ih =>
    cases hp : (p.1 == k) with
    | true => simp [mapFind, hp]
    | false => simp [mapFind, hp, ih]

theorem mapFind_eq_none (k : String) (m : List (String × String))
    (h : ∀ p ∈ m, (p.1 == k) = false) : mapFind k m = none := by
  induction m with
  | nil => rfl
  | cons p rest ih =>
    have hp := h p (List.mem_cons_self p rest)
    simp only [mapFind, hp, Bool.false_eq_true, if_false]
    exact ih fun q hq => h q (List.mem_cons_of_mem _ hq)

theorem mapFind_map_update (k v : String) (m : List (String × String)) :
    mapFind k (m.map fun p => if p.1 == k then (p.1, v) else p) =
      (mapFind k m).map fun _ => v := by
  induction m with
  | nil => rfl
  | cons p rest ih =>
    cases hp : (p.1 == k) with
    | true => simp [mapFind, hp]
    | false =>
      simp only [List.map_cons, hp, Bool.false_eq_true, if_false]
      simp only [mapFind, hp, Bool.false_eq_true, if_false]
      exact ih

theorem mapFind_isSome_of_any (k : String) (m : List (String × String))
    (h : (m.any fun p => p.1 == k) = true) : (mapFind k m).isSome := by
  induction m with
  | nil => simp at h
  | cons p rest ih =>
    cases hp : (p.1 == k) with
    | true => simp [mapFind, hp]
    | false =>
      simp only [mapFind, hp, Bool.false_eq_true, if_false]
      apply ih
      simp only [List.any_cons, hp, Bool.false_or] at h
      exact h

theorem mapFind_mapInsert_self (m : List (String × String)) (k v : String) :
    mapFind k (mapInsert m k v) = some v := by
  rw [mapInsert]
  cases hany : (m.any fun p => p.1 == k) with
  | true =>
    simp only [hany, if_pos]
    rw [mapFind_map_update]
    obtain ⟨w, hw⟩ := Option.isSome_iff_exists.mp (mapFind_isSome_of_any k m hany)
    rw [hw]
    rfl
  | false =>
    simp only [hany, Bool.false_eq_true, if_false]
    rw [mapFind_append]
    rw [mapFind_eq_none k m (by simpa using List.any_eq_false.mp hany)]
    simp [mapFind]

theorem mapInsert_not_mem (m : List (String × String)) (k v : String)
    (h : ∀ p ∈ m, (p.1 == k) = false) :
    mapInsert m k v = m ++ [(k, v)] := by
  have hany : (m.any fun p => p.1 == k) = false := List.any_eq_false.mpr (by simpa using h)
  rw [mapInsert, hany]
  simp

theorem insertHidden_fresh (hs : List HiddenInput) :
    ∀ m : List (String × String),
      (∀ h ∈ hs, h.name.isSome ∧ h.value.isSome) →
      (∀ h ∈ hs, ∀ p ∈ m, (p.1 == h.name.getD "") = false) →
      (hs.map fun h => h.name.getD "").Nodup →
      insertHidden m hs = Except.ok (m ++ hs.map fun h => (h.name.getD "", h.value.getD "")) := by
  induction hs with
  | nil => intro m _ _ _; simp [insertHidden]
  | cons h rest ih =>
    intro m hwf hdisj hnodup
    obtain ⟨hn, hv⟩ := hwf h (List.mem_cons_self h rest)
    obtain ⟨n, hn'⟩ := Option.isSome_iff_exists.mp hn
    obtain ⟨v, hv'⟩ := Option.isSome_iff_exists.mp hv
    have hgn : h.name.getD "" = n := by rw [hn']; rfl
    have hgv : h.value.getD "" = v := by rw [hv']; rfl
    simp only [insertHidden, hn', hv']
    rw [mapInsert_not_mem m n v (by
      intro p hp
      have := hdisj h (List.mem_cons_self h rest) p hp
      rwa [hgn] at this)]
    rw [ih (m ++ [(n, v)])
      (fun h' hh' => hwf h' (List.mem_cons_of_mem _ hh'))
      (by
        intro h' hh' p hp
        rcases List.mem_append.mp hp with hpm | hpv
        · exact hdisj h' (List.mem_cons_of_mem _ hh') p hpm
        · have hpv' : p = (n, v) := List.mem_singleton.mp hpv
          rw [hpv', beq_eq_false_iff_ne]
          intro he
          have he' : n = h'.name.getD "" := he
          apply (List.nodup_cons.mp hnodup).1
          show h.name.getD "" ∈ List.map (fun h => h.name.getD "") rest
          rw [hgn, he']
          exact List.mem_map.mpr ⟨h', hh', rfl⟩)
      (List.nodup_cons.mp hnodup).2]
    rw [List.map_cons, hgn, hgv, List.append_assoc]
    rfl

theorem mapFind_pairs (hs : List HiddenInput) (h0 : HiddenInput) (hmem : h0 ∈ hs)
    (hnodup : (hs.map fun h => h.name.getD "").Nodup) :
    mapFind (h0.name.getD "") (hs.map fun h => (h.name.getD "", h.value.getD "")) =
      some (h0.value.getD "") := by
  induction hs with
  | nil => cases hmem
  | cons h rest ih =>
    rcases List.mem_cons.mp hmem with rfl | hmem'
    · simp [mapFind]
    · have hne : (h.name.getD "" == h0.name.getD "") = false := by
        rw [beq_eq_false_iff_ne]
        intro he
        apply (List.nodup_cons.mp hnodup).1
        show h.name.getD "" ∈ List.map (fun h => h.name.getD "") rest
        rw [he]
        exact List.mem_map.mpr ⟨h0, hmem', rfl⟩
      simp only [List.map_cons, mapFind, hne, Bool.false_eq_true, if_false]
      exact ih hmem' (List.nodup_cons.mp hnodup).2


/-- C1: for every record list in which each record with a recognized letter
grade has a course field whose 4th whitespace token parses as a real number,
`calculate_gpa` returns the float divisions `sum4 / sumCredits` and
`sum9 / sumCredits` over exactly the recognized-grade records; with a nonzero
credit total these are the finite weighted averages. (The claim's two-record
example is refuted separately: its course fields hold the credit as the 3rd
whitespace token, not the 4th.) -/
theorem C1_gpa_weighted_average (rs : List CourseData)
    (h : ∀ r ∈ rs, specQualifies r = true → (creditOf r.course).isSome) :
    calculate_gpa rs = Except.ok
      { four := fdiv (specSum4 rs) (specSumCredits rs),
        nine := fdiv (specSum9 rs) (specSumCredits rs) } ∧
    (specSumCredits rs ≠ 0 → calculate_gpa rs = Except.ok
      { four := FVal.num (specSum4 rs / specSumCredits rs),
        nine := FVal.num (specSum9 rs / specSumCredits rs) }) := by
  constructor
  · rw [calculate_gpa, gpaLoop_ok_of_parseable rs h 0 0 0]
    simp [Except.map]
  · intro hne
    rw [calculate_gpa, gpaLoop_ok_of_parseable rs h 0 0 0]
    simp [Except.map, fdiv, hne]

/-- C1 counterexample: on the claim's own two-record example the course
fields "AP/MATH 1000 3.00" split into only three whitespace tokens, so the
4th-token indexing fails and `calculate_gpa` aborts with the credit-parse
error instead of returning nine = 7.5 and four = 3.5. -/
theorem C1_counterexample :
    calculate_gpa
        [⟨"FW 2020", "AP/MATH 1000 3.00", "Calculus", "A+"⟩,
         ⟨"FW 2020", "AP/MATH 2000 3.00", "Algebra", "B"⟩] =
      Except.error GpaError.creditParse ∧
    (Except.error GpaError.creditParse ≠
      (Except.ok { four := FVal.num 3.5, nine := FVal.num 7.5 } : Except GpaError GPA)) := by
  constructor
  · rfl
  · simp

/-- C1 witness: a two-record example whose courses carry the credit as the
4th whitespace token evaluates to nine = 7.5 and four = 3.5. -/
theorem C1_gpa_weighted_average_witness :
    calculate_gpa
        [⟨"FW 2020", "AP MATH 1000 3.00", "Calculus", "A+"⟩,
         ⟨"FW 2020", "AP MATH 2000 3.00", "Algebra", "B"⟩] =
      Except.ok { four := FVal.num 3.5, nine := FVal.num 7.5 } := by
  have hc1 : creditOf "AP MATH 1000 3.00" = some 3 := by
    simp [creditOf, parseF32, parseUnsigned, parseMantissaTail, digitsToNat,
      splitAsciiWs, splitWsAux, isAsciiWs, trimStr, trimChars]
  have hc2 : creditOf "AP MATH 2000 3.00" = some 3 := by
    simp [creditOf, parseF32, parseUnsigned, parseMantissaTail, digitsToNat,
      splitAsciiWs, splitWsAux, isAsciiWs, trimStr, trimChars]
  have q1 : specQualifies ⟨"FW 2020", "AP MATH 1000 3.00", "Calculus", "A+"⟩ = true := by decide
  have q2 : specQualifies ⟨"FW 2020", "AP MATH 2000 3.00", "Algebra", "B"⟩ = true := by decide
  have h := C1_gpa_weighted_average
      [⟨"FW 2020", "AP MATH 1000 3.00", "Calculus", "A+"⟩,
       ⟨"FW 2020", "AP MATH 2000 3.00", "Algebra", "B"⟩]
      (by
        intro r hr _
        simp only [ List.mem_cons, List.not_mem_nil, or_false] at hr
        rcases hr with h1 | h1
        · rw [h1]; simp [hc1]
        · rw [h1]; simp [hc2])
  have hsum : specSumCredits
      [⟨"FW 2020", "AP MATH 1000 3.00", "Calculus", "A+"⟩,
       ⟨"FW 2020", "AP MATH 2000 3.00", "Algebra", "B"⟩] = 6 := by
    simp [specSumCredits, List.filter_cons, q1, q2, specCredit, hc1, hc2]
    norm_num
  have hs4 : specSum4
      [⟨"FW 2020", "AP MATH 1000 3.00", "Calculus", "A+"⟩,
       ⟨"FW 2020", "AP MATH 2000 3.00", "Algebra", "B"⟩] = 21 := by
    have f1 : fourTable "A+" = some 4 := rfl
    have f2 : fourTable "B" = some 3 := rfl
    simp [specSum4, List.filter_cons, q1, q2, specCredit, hc1, hc2, f1, f2]
    norm_num
  have hs9 : specSum9
      [⟨"FW 2020", "AP MATH 1000 3.00", "Calculus", "A+"⟩,
       ⟨"FW 2020", "AP MATH 2000 3.00", "Algebra", "B"⟩] = 45 := by
    have n1 : nineTable "A+" = some 9 := rfl
    have n2 : nineTable "B" = some 6 := rfl
    simp [specSum9, List.filter_cons, q1, q2, specCredit, hc1, hc2, n1, n2]
    norm_num
  have hne : specSumCredits
      [⟨"FW 2020", "AP MATH 1000 3.00", "Calculus", "A+"⟩,
       ⟨"FW 2020", "AP MATH 2000 3.00", "Algebra", "B"⟩] ≠ 0 := by
    rw [hsum]; norm_num
  rw [h.2 hne, hs4, hs9, hsum]
  norm_num

/-- C6: when no record carries a recognized letter grade (in particular on the
empty list), `calculate_gpa` performs the float division 0/0 for both scales
and returns NaN for both, with no guard or default. -/
theorem C6_no_qualifying_is_nan (rs : List CourseData)
    (h : ∀ r ∈ rs, nineTable r.grade = none) :
    calculate_gpa rs = Except.ok { four := fdiv 0 0, nine := fdiv 0 0 } ∧
    fdiv 0 0 = FVal.nan := by
  constructor
  · rw [calculate_gpa, gpaLoop_of_unrecognized rs h 0 0 0]
    simp [Except.map]
  · simp [fdiv]

/-- C6 witness: a single record graded "IP" is excluded and the result is
NaN/NaN. -/
theorem C6_no_qualifying_is_nan_witness :
    calculate_gpa [⟨"F", "X 1.00", "T", "IP"⟩] =
      Except.ok { four := FVal.nan, nine := FVal.nan } := by
  have h := C6_no_qualifying_is_nan [⟨"F", "X 1.00", "T", "IP"⟩] (by decide)
  rw [h.1, h.2]

/-- C7: `calculate_gpa` fails with the credit-parse error exactly when some
record with a recognized letter grade has a course field with no 4th
whitespace token or a 4th token that does not parse as a number; absent such a
record the failure branch is unreachable. -/
theorem C7_credit_parse_error_iff (rs : List CourseData) :
    calculate_gpa rs = Except.error GpaError.creditParse ↔
      ∃ r ∈ rs, (nineTable r.grade).isSome ∧ creditOf r.course = none := by
  rw [← gpaLoop_error_iff rs 0 0 0, calculate_gpa]
  cases gpaLoop rs 0 0 0 with
  | error e => cases e; simp [Except.map]
  | ok acc => simp [Except.map]

/-- C7 witness: a recognized grade whose course field has fewer than four
whitespace tokens makes `calculate_gpa` fail with the credit-parse error. -/
theorem C7_credit_parse_error_iff_witness :
    calculate_gpa [⟨"F", "MATH", "T", "A"⟩] = Except.error GpaError.creditParse :=
  (C7_credit_parse_error_iff [⟨"F", "MATH", "T", "A"⟩]).mpr (by decide)

/-- C10: `calculate_gpa` reads only the course and grade fields: two record
lists that agree pairwise on course and grade (sessions and titles arbitrary)
produce identical results, success or failure alike. -/
theorem C10_depends_only_on_course_and_grade (rs1 rs2 : List CourseData)
    (h : List.Forall₂ (fun a b => a.course = b.course ∧ a.grade = b.grade) rs1 rs2) :
    calculate_gpa rs1 = calculate_gpa rs2 := by
  rw [calculate_gpa, calculate_gpa, gpaLoop_congr rs1 rs2 h 0 0 0]

/-- C10 witness: changing session and title leaves the result unchanged. -/
theorem C10_depends_only_on_course_and_grade_witness :
    calculate_gpa [⟨"S1", "AP MATH 1000 3.00", "T1", "A"⟩] =
      calculate_gpa [⟨"S2", "AP MATH 1000 3.00", "T2", "A"⟩] :=
  C10_depends_only_on_course_and_grade _ _
    (List.Forall₂.cons ⟨rfl, rfl⟩ List.Forall₂.nil)

/-- C4: the entity decoder removes each `&nbsp;` occurrence entirely, decodes
`&amp;`, `&lt;`, `&gt;`, and decodes nothing else: it is the identity on every
string containing none of the four entity forms, and on the spec's example
cell it deletes the `&nbsp;` (leaving no space in its place) and decodes the
`&amp;`. -/
theorem C4_entity_decoding (s : String)
    (h1 : ¬ "&nbsp;".data <:+: s.data) (h2 : ¬ "&amp;".data <:+: s.data)
    (h3 : ¬ "&lt;".data <:+: s.data) (h4 : ¬ "&gt;".data <:+: s.data) :
    html_entities s = s ∧
    html_entities "F&nbsp;2020 &amp; Fall" = "F2020 & Fall" ∧
    html_entities "x&lt;y&gt;z" = "x<y>z" := by
  refine ⟨html_entities_of_clean s h1 h2 h3 h4, ?_, ?_⟩ <;> decide

/-- C4 witness: an undecoded entity (`&copy;`) passes through unchanged. -/
theorem C4_entity_decoding_witness :
    html_entities "a &copy; b" = "a &copy; b" :=
  (C4_entity_decoding "a &copy; b" (by decide) (by decide) (by decide) (by decide)).1

/-- C5: on a first `table.bodytext` whose rows are one zero-cell header row
followed by K data rows of at least four cells each, scraping returns exactly
K records in document order, one per data row, with the fields taken
positionally from the row's first four cells (trimmed, entity-decoded); every
further table is ignored. -/
theorem C5_scrape_shape (dataRows : List (List String)) (rest : List (List (List String)))
    (h : ∀ r ∈ dataRows, 4 ≤ r.length) :
    scrape_table (([] :: dataRows) :: rest) =
      Except.ok (dataRows.map fun r => recordOfRow (select_cells r)) ∧
    (dataRows.map fun r => recordOfRow (select_cells r)).length = dataRows.length := by
  constructor
  · have hlong : ∀ r ∈ dataRows.map select_cells, 4 ≤ r.length := by
      intro r hr
      obtain ⟨r0, hr0, rfl⟩ := List.mem_map.mp hr
      simpa [select_cells] using h r0 hr0
    show scrapeRows (([] :: dataRows).map select_cells) = _
    rw [List.map_cons]
    have hskip : scrapeRows (select_cells [] :: dataRows.map select_cells) =
        scrapeRows (dataRows.map select_cells) := rfl
    rw [hskip, scrapeRows_all_long _ hlong, List.map_map]
    rfl
  · rw [List.length_map]

/-- C5 witness: one header row and two data rows give exactly the two records
in order; a second table is ignored. -/
theorem C5_scrape_shape_witness :
    scrape_table [[[], ["F20", "C1", "T1", "A"], ["W21", "C2", "T2", "B"]], [["x"]]] =
      Except.ok
        [⟨"F20", "C1", "T1", "A"⟩, ⟨"W21", "C2", "T2", "B"⟩] := by
  have h := C5_scrape_shape [["F20", "C1", "T1", "A"], ["W21", "C2", "T2", "B"]] [[["x"]]]
    (by decide)
  rw [h.1]
  rfl

/-- C8: scraping the first table fails with the row-shape error exactly when
some retained row (at least one cell) has fewer than four cells; when every
non-empty row has at least four cells the failure branch is unreachable and a
record list is produced. -/
theorem C8_row_shape_iff (t : List (List String)) (rest : List (List (List String))) :
    (scrape_table (t :: rest) = Except.error ScrapeError.rowShape ↔
      ∃ row ∈ t, row ≠ [] ∧ row.length < 4) ∧
    ((∀ row ∈ t, row = [] ∨ 4 ≤ row.length) → ∃ l, scrape_table (t :: rest) = Except.ok l) := by
  have hiff : scrape_table (t :: rest) = Except.error ScrapeError.rowShape ↔
      ∃ row ∈ t, row ≠ [] ∧ row.length < 4 := by
    show scrapeRows (t.map select_cells) = _ ↔ _
    rw [scrapeRows_error_iff]
    constructor
    · rintro ⟨r, hr, hne, hlt⟩
      obtain ⟨r0, hr0, rfl⟩ := List.mem_map.mp hr
      refine ⟨r0, hr0, ?_, ?_⟩
      · intro hx
        rw [hx] at hne
        exact hne rfl
      · simpa [select_cells] using hlt
    · rintro ⟨r0, hr0, hne, hlt⟩
      refine ⟨select_cells r0, List.mem_map.mpr ⟨r0, hr0, rfl⟩, ?_, ?_⟩
      · intro hx
        exact hne (List.map_eq_nil_iff.mp hx)
      · simpa [select_cells] using hlt
  refine ⟨hiff, ?_⟩
  intro hall
  cases hres : scrape_table (t :: rest) with
  | ok l => exact ⟨l, rfl⟩
  | error e =>
    cases e with
    | tableNotFound => exact absurd hres (scrapeRows_ne_tableNotFound (t.map select_cells))
    | rowShape =>
      obtain ⟨row, hrow, hne, hlt⟩ := hiff.mp hres
      rcases hall row hrow with h0 | h4
      · exact (hne h0).elim
      · exact absurd hlt (not_lt.mpr h4)

/-- C8 witness: a three-cell row aborts the scrape with the row-shape
error. -/
theorem C8_row_shape_iff_witness :
    scrape_table [[["a", "b", "c"]]] = Except.error ScrapeError.rowShape :=
  (C8_row_shape_iff [["a", "b", "c"]] []).1.mpr (by decide)

/-- C9: scraping fails with the table-not-found error exactly when no element
matches `table.bodytext`; with at least one match no such error is raised and
the result depends only on the first match. -/
theorem C9_table_not_found_iff (tables : List (List (List String))) :
    (scrape_table tables = Except.error ScrapeError.tableNotFound ↔ tables = []) ∧
    (∀ t rest, scrape_table (t :: rest) = scrape_table [t]) := by
  constructor
  · cases tables with
    | nil => simp [scrape_table]
    | cons t rest =>
      constructor
      · intro hx
        exact absurd hx (scrapeRows_ne_tableNotFound (t.map select_cells))
      · intro hx
        exact absurd hx (List.cons_ne_nil t rest)
  · intro t rest
    rfl

/-- C9 witness: an empty selection yields the table-not-found error. -/
theorem C9_table_not_found_iff_witness :
    scrape_table [] = Except.error ScrapeError.tableNotFound :=
  (C9_table_not_found_iff []).1.mpr rfl

/-- C2 counterexample: a single hidden input named `mli` collides with the
fixed username field; the submitted map then has 3 fields, not N + 3 = 4, with
the hidden value overwriting the fixed one. -/
theorem C2_counterexample :
    login_fields "u" "p" [⟨some "mli", some "token"⟩] =
      Except.ok [("mli", "token"), ("password", "p"), ("dologin", "Login")] ∧
    ([("mli", "token"), ("password", "p"), ("dologin", "Login")] : List (String × String)).length = 3 ∧
    3 ≠ 1 + 3 := by
  refine ⟨rfl, rfl, by decide⟩

/-- C2 (amended): when the N hidden inputs of the login page carry pairwise
distinct names, all distinct from `mli`, `password` and `dologin`, the
submitted form has exactly N + 3 fields — the three fixed credential fields
plus one field per hidden input with its own value; and inserting a hidden
input always overwrites any existing field of the same name with the hidden
value (so a collision reduces the field count rather than adding a field). -/
theorem C2_submitted_fields (username password : String) (hiddens : List HiddenInput)
    (hwf : ∀ h ∈ hiddens, h.name.isSome ∧ h.value.isSome)
    (hnodup : (hiddens.map fun h => h.name.getD "").Nodup)
    (hdisj : ∀ h ∈ hiddens, h.name.getD "" ∉ (["mli", "password", "dologin"] : List String)) :
    (∃ m, login_fields username password hiddens = Except.ok m ∧
      m.length = hiddens.length + 3 ∧
      mapFind "mli" m = some username ∧
      mapFind "password" m = some password ∧
      mapFind "dologin" m = some "Login" ∧
      ∀ h ∈ hiddens, mapFind (h.name.getD "") m = some (h.value.getD "")) ∧
    (∀ (m' : List (String × String)) (n v : String),
      insertHidden m' [⟨some n, some v⟩] = Except.ok (mapInsert m' n v) ∧
      mapFind n (mapInsert m' n v) = some v) := by
  constructor
  · have hdisj' : ∀ h ∈ hiddens, ∀ p ∈ fixedFields username password,
        (p.1 == h.name.getD "") = false := by
      intro h hh p hp
      rw [beq_eq_false_iff_ne]
      intro he
      apply hdisj h hh
      rw [← he]
      rcases List.mem_cons.mp hp with h1 | h1
      · rw [h1]; simp [fixedFields]
      rcases List.mem_cons.mp h1 with h2 | h2
      · rw [h2]; simp [fixedFields]
      · rw [List.mem_singleton.mp h2]; simp [fixedFields]
    refine ⟨fixedFields username password ++ hiddens.map fun h => (h.name.getD "", h.value.getD ""),
      insertHidden_fresh hiddens (fixedFields username password) hwf hdisj' hnodup, ?_, ?_, ?_, ?_, ?_⟩
    · simp only [fixedFields, List.length_append, List.length_map, List.length_cons,
        List.length_nil]
      omega
    · rw [mapFind_append]
      have : mapFind "mli" (fixedFields username password) = some username := rfl
      rw [this]
    · rw [mapFind_append]
      have : mapFind "password" (fixedFields username password) = some password := rfl
      rw [this]
    · rw [mapFind_append]
      have : mapFind "dologin" (fixedFields username password) = some "Login" := rfl
      rw [this]
    · intro h hh
      rw [mapFind_append]
      have hnone : mapFind (h.name.getD "") (fixedFields username password) = none := by
        apply mapFind_eq_none
        intro p hp
        exact hdisj' h hh p hp
      rw [hnone]
      exact mapFind_pairs hiddens h hh hnodup
  · intro m' n v
    exact ⟨rfl, mapFind_mapInsert_self m' n v⟩

/-- C2 witness: one well-formed hidden input with a fresh name yields 1 + 3
fields carrying the credentials and the hidden value. -/
theorem C2_submitted_fields_witness :
    ∃ m, login_fields "alice" "pw" [⟨some "token", some "abc"⟩] = Except.ok m ∧
      m.length = 1 + 3 ∧ mapFind "token" m = some "abc" ∧ mapFind "mli" m = some "alice" := by
  obtain ⟨⟨m, h1, h2, h3, _, _, h6⟩, _⟩ :=
    C2_submitted_fields "alice" "pw" [⟨some "token", some "abc"⟩]
      (by decide) (by decide) (by decide)
  exact ⟨m, h1, h2, h6 _ (List.mem_singleton.mpr rfl), h3⟩

/-- C3: given any well-formed login page, `auth` reports success exactly when
the literal marker "You have successfully authenticated" occurs as a
substring of the login response body; it consults nothing else, and a
case-altered near match does not count. -/
theorem C3_success_marker (username password : String) (hiddens : List HiddenInput)
    (body : String) (m : List (String × String))
    (hok : login_fields username password hiddens = Except.ok m) :
    (auth username password hiddens body = Except.ok (m, true) ↔
      "You have successfully authenticated".data <:+: body.data) ∧
    containsSub "Status: You Have Successfully Authenticated".data
      "You have successfully authenticated".data = false := by
  constructor
  · rw [auth, hok]
    simp [Except.map, containsSub_correct, successMarker]
  · decide

/-- C3 witness: a body containing the exact marker makes `auth` return true
(posting the three fixed fields when the page has no hidden inputs). -/
theorem C3_success_marker_witness :
    auth "u" "p" [] "Welcome. You have successfully authenticated to the portal." =
      Except.ok (fixedFields "u" "p", true) :=
  (C3_success_marker "u" "p" [] "Welcome. You have successfully authenticated to the portal."
    (fixedFields "u" "p") rfl).1.mpr (by decide)

end GradesList
